import Mathlib

/-!
Shallow embedding of the bookora booking core (src/booking/models.py and
src/booking/views.py).

Conventions of the embedding:
* Instants are integers counting minutes in the deployment's single canonical
  timezone (settings.py fixes one `TIME_ZONE`); `timedelta(minutes=m)` is the
  integer `m`, `timedelta(hours=2)` is `120`, one day is `1440`.
* A calendar date is a natural number `day` of days since an epoch Monday, so
  Python's `date.weekday()` (Monday = 0) is `day % 7`, and
  `make_aware(datetime.combine(day, time))` is `day * 1440 + time` with `time`
  the minutes-of-day of the `TimeField` value.
* Database rows are lists of structures; a queryset `filter` is `List.filter`,
  `order_by` is a stable sort by the key, `exists()` is `List.any`,
  autoincrement primary keys come from a `nextId` counter.
* `timezone.now()` is passed explicitly as `now` (the only global the source
  reads inside `get_available_slots`).
* Raised exceptions (`SlotError`, `ValidationError`) become result
  constructors; a Django `transaction.atomic` block that raises leaves the
  state untouched, which the embedding renders by returning no state on the
  error constructors.
* Presentation-only columns (names, slugs, prices, notes, created_at,
  reasons) play no role in the claims and are omitted.
-/

namespace Bookora

/-- Booking.Status from models.py: CONFIRMED / CANCELLED. -/
inductive Status where
  | confirmed
  | cancelled
deriving DecidableEq

/-- AvailabilityRule from models.py: weekday 0..6 (Monday = 0), start/end as
minutes-of-day of the TimeField values. -/
structure AvailabilityRule where
  workspace : Nat
  weekday : Nat
  start_time : Nat
  end_time : Nat
deriving DecidableEq

/-- TimeOff from models.py (blackout interval). -/
structure TimeOff where
  workspace : Nat
  start_at : Int
  end_at : Int
deriving DecidableEq

/-- Service from models.py; only the fields the booking core reads. -/
structure Service where
  workspace : Nat
  duration_min : Nat
  is_active : Bool
deriving DecidableEq

/-- Booking from models.py; `id` is the autoincrement primary key. -/
structure Booking where
  id : Nat
  workspace : Nat
  service : Nat
  customer : Nat
  start_at : Int
  end_at : Int
  status : Status
deriving DecidableEq

/-- The persisted store the booking core reads and writes. -/
structure State where
  rules : List AvailabilityRule
  timeOffs : List TimeOff
  bookings : List Booking
  nextId : Nat
deriving DecidableEq

/-- views.py: `PAUZA_MIN = 15`, the buffer appended after a service. -/
def PAUZA_MIN : Nat := 15

/-- views.py: `dur_cu_pauza = timedelta(minutes=service.duration_min + PAUZA_MIN)`. -/
def dur_cu_pauza (duration_min : Nat) : Int := ((duration_min + PAUZA_MIN : Nat) : Int)

/-- views.py get_available_slots: `is_occupied = any(start < candidate_end and
end > candidate_start for start, end in all_blocked_intervals)`. -/
def is_occupied (blocked : List (Int × Int)) (candidate_start candidate_end : Int) : Bool :=
  blocked.any fun p => decide (p.1 < candidate_end) && decide (p.2 > candidate_start)

/-- views.py get_available_slots: the queryset
`AvailabilityRule.objects.filter(workspace=workspace, weekday=weekday).order_by("start_time")`. -/
def matchingRules (st : State) (workspace weekday : Nat) : List AvailabilityRule :=
  (st.rules.filter fun r =>
      decide (r.workspace = workspace) && decide (r.weekday = weekday)).insertionSort
    (fun a b => a.start_time ≤ b.start_time)

/-- views.py get_available_slots: `all_blocked_intervals = existing_bookings +
time_off_periods`, both filtered to rows intersecting `[day_start, day_end)`
and mapped with `values_list("start_at", "end_at")`. -/
def all_blocked_intervals (st : State) (workspace : Nat) (day_start day_end : Int) :
    List (Int × Int) :=
  ((st.bookings.filter fun b =>
      decide (b.workspace = workspace) && decide (b.status = Status.confirmed) &&
      decide (b.start_at < day_end) && decide (b.end_at > day_start)).map
    fun b => (b.start_at, b.end_at)) ++
  ((st.timeOffs.filter fun o =>
      decide (o.workspace = workspace) &&
      decide (o.start_at < day_end) && decide (o.end_at > day_start)).map
    fun o => (o.start_at, o.end_at))

/-- views.py get_available_slots: the inner `while t + dur_cu_pauza <= end_dt`
walk over one rule's window, stepping `t += step` with `step =
timedelta(minutes=30)`, skipping candidates before `booking_threshold` and
candidates whose inflated interval is occupied.  The loop is embedded with an
iteration budget `fuel`; `slotWalk_fuel_stable` below shows any budget of at
least `(end_dt + 30 - t).toNat / 30` iterations gives the loop's full
output, and the call site passes a budget above that bound, so the budget
never truncates the source's while loop. -/
def slotWalk (booking_threshold : Int) (blocked : List (Int × Int)) (duration_min : Nat)
    (end_dt : Int) : Nat → Int → List Int
  | 0, _ => []
  | fuel + 1, t =>
    if t + dur_cu_pauza duration_min ≤ end_dt then
      let rest := slotWalk booking_threshold blocked duration_min end_dt fuel (t + 30)
      if t < booking_threshold then rest
      else if is_occupied blocked t (t + dur_cu_pauza duration_min) then rest
      else t :: rest
    else []

/-- views.py `get_available_slots(workspace, service, day)`, with the
`timezone.now()` read passed in as `now`.  `booking_threshold = now +
timedelta(hours=2)`; rule windows are anchored on `day`; the per-rule walks are
appended in `order_by("start_time")` order. -/
def get_available_slots (st : State) (workspace : Nat) (service : Service) (day : Nat)
    (now : Int) : List Int :=
  let weekday := day % 7
  let rules := matchingRules st workspace weekday
  if rules.isEmpty then []
  else
    let booking_threshold := now + 120
    let day_start : Int := (day : Int) * 1440
    let day_end : Int := day_start + 1440
    let blocked := all_blocked_intervals st workspace day_start day_end
    rules.flatMap fun rule =>
      slotWalk booking_threshold blocked service.duration_min
        (day_start + (rule.end_time : Int))
        (rule.end_time + 1) (day_start + (rule.start_time : Int))

/-- views.py create_booking_atomic / models.py Booking.clean: the queryset
`Booking.objects.filter(workspace=..., status=CONFIRMED).filter(
Q(start_at__lt=end_at) & Q(end_at__gt=start_at)).exists()`. -/
def hasOverlap (bookings : List Booking) (workspace : Nat) (start_at end_at : Int) : Bool :=
  bookings.any fun b =>
    decide (b.workspace = workspace) && decide (b.status = Status.confirmed) &&
    decide (b.start_at < end_at) && decide (b.end_at > start_at)

/-- Outcome of `create_booking_atomic`: `conflict` is the raised
`SlotError("That time slot is already booked.")`, `invalid` is a
`ValidationError` raised by `full_clean`, `created` carries the committed
state and the returned booking.  The error constructors carry no state:
`transaction.atomic` rolls everything back when the block raises. -/
inductive CreateResult where
  | conflict
  | invalid
  | created (st : State) (b : Booking)
deriving DecidableEq

/-- True exactly on the `created` outcome. -/
def CreateResult.isCreated : CreateResult → Bool
  | .created _ _ => true
  | _ => false

/-- views.py `create_booking_atomic(workspace, service, customer, start_at,
end_at)`.  Under the `select_for_update` lock it re-checks the confirmed
overlap and raises `SlotError` on a hit; otherwise it builds the CONFIRMED
booking and calls `full_clean` (end-after-start check, then the same overlap
check again — the fresh row has no pk to exclude) before `save` commits the
insert.  `save` runs `full_clean` once more (models.py `Booking.save`), which
repeats the identical checks and is therefore not duplicated here. -/
def create_booking_atomic (st : State) (workspace service customer : Nat)
    (start_at end_at : Int) : CreateResult :=
  if hasOverlap st.bookings workspace start_at end_at then
    CreateResult.conflict
  else if end_at ≤ start_at then
    CreateResult.invalid
  else if hasOverlap st.bookings workspace start_at end_at then
    CreateResult.invalid
  else
    let b : Booking :=
      { id := st.nextId, workspace := workspace, service := service, customer := customer,
        start_at := start_at, end_at := end_at, status := Status.confirmed }
    CreateResult.created
      { st with bookings := st.bookings ++ [b], nextId := st.nextId + 1 } b

/-- One client request to the booking transactor. -/
structure BookingRequest where
  workspace : Nat
  service : Nat
  customer : Nat
  start_at : Int
  end_at : Int
deriving DecidableEq

/-- The state after one `create_booking_atomic` call: the committed state on
success, the unchanged state when the transaction aborted. -/
def applyCreate (st : State) (r : BookingRequest) : State :=
  match create_booking_atomic st r.workspace r.service r.customer r.start_at r.end_at with
  | .created st2 _ => st2
  | _ => st

/-- A serialized sequence of `create_booking_atomic` calls (the per-calendar
`select_for_update` lock serializes concurrent callers). -/
def runCreates (st : State) (rs : List BookingRequest) : State :=
  rs.foldl applyCreate st

/-- views.py `cancel_booking`: look the booking up by id and customer
(get_object_or_404), flip its status to CANCELLED and `save`, which runs
`full_clean` — the end-after-start check and the confirmed-overlap check
excluding the row's own pk — before the UPDATE of the row with that pk. -/
def cancel_booking (st : State) (booking_id customer : Nat) : Option State :=
  match st.bookings.find? (fun b => decide (b.id = booking_id) && decide (b.customer = customer)) with
  | none => none
  | some b =>
      if b.end_at ≤ b.start_at then none
      else if st.bookings.any (fun x =>
          decide (x.id ≠ booking_id) && decide (x.workspace = b.workspace) &&
          decide (x.status = Status.confirmed) &&
          decide (x.start_at < b.end_at) && decide (x.end_at > b.start_at)) then none
      else some { st with bookings := st.bookings.map fun x =>
        if x.id = booking_id then { x with status := Status.cancelled } else x }

/-- The spec's §8 invariant: no two distinct confirmed bookings on the same
workspace overlap (half-open interval test). -/
def noConfirmedOverlap (st : State) : Prop :=
  st.bookings.Pairwise fun b1 b2 =>
    b1.workspace = b2.workspace → b1.status = Status.confirmed → b2.status = Status.confirmed →
      ¬(b1.start_at < b2.end_at ∧ b2.start_at < b1.end_at)

/-- The spec's occupancy set for a workspace: every confirmed booking interval
and every blackout interval, with no day filter. -/
def occupancy (st : State) (workspace : Nat) : List (Int × Int) :=
  ((st.bookings.filter fun b =>
      decide (b.workspace = workspace) && decide (b.status = Status.confirmed)).map
    fun b => (b.start_at, b.end_at)) ++
  ((st.timeOffs.filter fun o => decide (o.workspace = workspace)).map
    fun o => (o.start_at, o.end_at))

/-! Concrete fixtures used by witnesses, counterexamples and scenario claims.
All live on workspace 1; day 0 is a Monday (weekday 0); minutes of day:
09:00 = 540, 10:00 = 600, 17:00 = 1020. -/

/-- A 30-minute service on workspace 1. -/
def svc30 : Service := { workspace := 1, duration_min := 30, is_active := true }

/-- A Monday availability rule on workspace 1. -/
def ruleMonday (s e : Nat) : AvailabilityRule :=
  { workspace := 1, weekday := 0, start_time := s, end_time := e }

/-- Empty store. -/
def stEmpty : State := { rules := [], timeOffs := [], bookings := [], nextId := 0 }

/-- Monday 02:00-10:00 rule only: the first grid candidate sits exactly at the
lead-time threshold when `now = 0`. -/
def stLead : State :=
  { rules := [ruleMonday 120 600], timeOffs := [], bookings := [], nextId := 0 }

/-- The spec §8 scenario state: Monday rule 09:00-17:00, no blackouts, no
bookings. -/
def stMon : State :=
  { rules := [ruleMonday 540 1020], timeOffs := [], bookings := [], nextId := 0 }

/-- Monday rule 09:00-17:00 plus one confirmed booking 10:30-11:00. -/
def stAdj : State :=
  { rules := [ruleMonday 540 1020], timeOffs := [],
    bookings := [{ id := 0, workspace := 1, service := 1, customer := 7,
                   start_at := 630, end_at := 660, status := Status.confirmed }],
    nextId := 1 }

/-- Two overlapping Monday rules, 09:00-12:00 and 10:00-11:00. -/
def stTwoRules : State :=
  { rules := [ruleMonday 540 720, ruleMonday 600 660], timeOffs := [], bookings := [], nextId := 0 }

/-- Monday rule 09:00-17:00 plus one confirmed booking 10:00-10:30. -/
def stBooked : State :=
  { rules := [ruleMonday 540 1020], timeOffs := [],
    bookings := [{ id := 0, workspace := 1, service := 1, customer := 7,
                   start_at := 600, end_at := 630, status := Status.confirmed }],
    nextId := 1 }

/-- `stBooked` after its booking is cancelled. -/
def stBookedCancelled : State :=
  { rules := [ruleMonday 540 1020], timeOffs := [],
    bookings := [{ id := 0, workspace := 1, service := 1, customer := 7,
                   start_at := 600, end_at := 630, status := Status.cancelled }],
    nextId := 1 }

/-! Shared lemmas about the slot walk and the slot engine. -/

/-- The iteration budget is irrelevant once it covers the window: any two
budgets of at least `(end_dt + 30 - t).toNat / 30` iterations produce the same
output, so the embedded walk computes the source's unbounded while loop. -/
theorem slotWalk_fuel_stable (booking_threshold : Int) (blocked : List (Int × Int))
    (duration_min : Nat) (end_dt : Int) (f1 f2 : Nat) (t : Int)
    (h1 : (end_dt + 30 - t).toNat ≤ 30 * f1) (h2 : (end_dt + 30 - t).toNat ≤ 30 * f2) :
    slotWalk booking_threshold blocked duration_min end_dt f1 t =
      slotWalk booking_threshold blocked duration_min end_dt f2 t := by
  induction f1 generalizing f2 t with
  | zero =>
    match f2 with
    | 0 => rfl
    | f2 + 1 =>
      simp only [slotWalk]
      rw [if_neg (by simp only [dur_cu_pauza, PAUZA_MIN]; omega)]
  | succ f1 ih =>
    match f2 with
    | 0 =>
      simp only [slotWalk]
      rw [if_neg (by simp only [dur_cu_pauza, PAUZA_MIN]; omega)]
    | f2 + 1 =>
      simp only [slotWalk]
      by_cases hle : t + dur_cu_pauza duration_min ≤ end_dt
      · rw [if_pos hle, if_pos hle]
        have hd : (15 : Int) ≤ dur_cu_pauza duration_min := by
          simp only [dur_cu_pauza, PAUZA_MIN]; omega
        have := ih f2 (t + 30) (by omega) (by omega)
        rw [this]
      · rw [if_neg hle, if_neg hle]

/-- Everything the walk guarantees about a start it emits: it is at or after
the walk's origin, at or after the lead-time threshold, its inflated interval
fits inside the rule window, and its inflated interval clears every blocked
interval. -/
theorem slotWalk_mem {booking_threshold : Int} {blocked : List (Int × Int)}
    {duration_min : Nat} {end_dt : Int} (fuel : Nat) (t x : Int)
    (h : x ∈ slotWalk booking_threshold blocked duration_min end_dt fuel t) :
    t ≤ x ∧ booking_threshold ≤ x ∧ x + dur_cu_pauza duration_min ≤ end_dt ∧
      ∀ p ∈ blocked, ¬(p.1 < x + dur_cu_pauza duration_min ∧ p.2 > x) := by
  induction fuel generalizing t with
  | zero => simp [slotWalk] at h
  | succ fuel ih =>
    simp only [slotWalk] at h
    by_cases hle : t + dur_cu_pauza duration_min ≤ end_dt
    · rw [if_pos hle] at h
      by_cases hlt : t < booking_threshold
      · simp only [if_pos hlt] at h
        obtain ⟨g1, g2, g3, g4⟩ := ih (t + 30) h
        exact ⟨by omega, g2, g3, g4⟩
      · by_cases hocc : is_occupied blocked t (t + dur_cu_pauza duration_min) = true
        · simp only [if_neg hlt, if_pos hocc] at h
          obtain ⟨g1, g2, g3, g4⟩ := ih (t + 30) h
          exact ⟨by omega, g2, g3, g4⟩
        · simp only [if_neg hlt, if_neg hocc] at h
          rcases List.mem_cons.mp h with rfl | h
          · refine ⟨le_refl _, by omega, hle, ?_⟩
            intro p hp hcontra
            apply hocc
            unfold is_occupied
            rw [List.any_eq_true]
            exact ⟨p, hp, by simp [hcontra.1, hcontra.2]⟩
          · obtain ⟨g1, g2, g3, g4⟩ := ih (t + 30) h
            exact ⟨by omega, g2, g3, g4⟩
    · rw [if_neg hle] at h
      simp at h

/-- The walk's output is strictly increasing. -/
theorem slotWalk_pairwise (booking_threshold : Int) (blocked : List (Int × Int))
    (duration_min : Nat) (end_dt : Int) (fuel : Nat) (t : Int) :
    List.Pairwise (· < ·) (slotWalk booking_threshold blocked duration_min end_dt fuel t) := by
  induction fuel generalizing t with
  | zero => simp [slotWalk]
  | succ fuel ih =>
    simp only [slotWalk]
    by_cases hle : t + dur_cu_pauza duration_min ≤ end_dt
    · rw [if_pos hle]
      by_cases hlt : t < booking_threshold
      · simpa only [if_pos hlt] using ih (t + 30)
      · by_cases hocc : is_occupied blocked t (t + dur_cu_pauza duration_min) = true
        · simpa only [if_neg hlt, if_pos hocc] using ih (t + 30)
        · simp only [if_neg hlt, if_neg hocc]
          refine List.pairwise_cons.mpr ⟨?_, ih (t + 30)⟩
          intro x hx
          have := (slotWalk_mem fuel (t + 30) x hx).1
          omega
    · rw [if_neg hle]
      exact List.Pairwise.nil

/-- The walk advances by 30 minutes per iteration and each iteration emits at
most one start, so its output length is bounded by the window size. -/
theorem slotWalk_length (booking_threshold : Int) (blocked : List (Int × Int))
    (duration_min : Nat) (end_dt : Int) (fuel : Nat) (t : Int) :
    30 * (slotWalk booking_threshold blocked duration_min end_dt fuel t).length ≤
      (end_dt + 30 - t).toNat := by
  induction fuel generalizing t with
  | zero => simp [slotWalk]
  | succ fuel ih =>
    simp only [slotWalk]
    by_cases hle : t + dur_cu_pauza duration_min ≤ end_dt
    · rw [if_pos hle]
      simp only [dur_cu_pauza, PAUZA_MIN] at hle
      have := ih (t + 30)
      by_cases hlt : t < booking_threshold
      · simp only [if_pos hlt]
        omega
      · by_cases hocc : is_occupied blocked t (t + dur_cu_pauza duration_min) = true
        · simp only [if_neg hlt, if_pos hocc]
          omega
        · simp only [if_neg hlt, if_neg hocc, List.length_cons]
          omega
    · rw [if_neg hle]
      simp

/-- Membership in the sorted matching-rule list comes from a stored rule for
this workspace and weekday. -/
theorem mem_matchingRules {st : State} {workspace weekday : Nat} {r : AvailabilityRule}
    (h : r ∈ matchingRules st workspace weekday) :
    r ∈ st.rules ∧ r.workspace = workspace ∧ r.weekday = weekday := by
  unfold matchingRules at h
  have h2 := (List.perm_insertionSort
    (fun a b : AvailabilityRule => a.start_time ≤ b.start_time) _).mem_iff.mp h
  have h3 := List.mem_filter.mp h2
  have h4 : r.workspace = workspace ∧ r.weekday = weekday := by simpa using h3.2
  exact ⟨h3.1, h4.1, h4.2⟩

/-- Every start the engine returns comes from one matching rule's walk and
inherits all the walk's guarantees. -/
theorem mem_get_available_slots {st : State} {workspace : Nat} {service : Service}
    {day : Nat} {now t : Int}
    (h : t ∈ get_available_slots st workspace service day now) :
    ∃ rule ∈ matchingRules st workspace (day % 7),
      (day : Int) * 1440 + (rule.start_time : Int) ≤ t ∧
      now + 120 ≤ t ∧
      t + dur_cu_pauza service.duration_min ≤ (day : Int) * 1440 + (rule.end_time : Int) ∧
      ∀ p ∈ all_blocked_intervals st workspace ((day : Int) * 1440) ((day : Int) * 1440 + 1440),
        ¬(p.1 < t + dur_cu_pauza service.duration_min ∧ p.2 > t) := by
  unfold get_available_slots at h
  simp only at h
  split at h
  · simp at h
  · obtain ⟨rule, hrule, hw⟩ := List.mem_flatMap.mp h
    obtain ⟨h1, h2, h3, h4⟩ := slotWalk_mem _ _ t hw
    exact ⟨rule, hrule, h1, h2, h3, h4⟩

/-- The overlap queryset is non-empty exactly when a stored confirmed booking
of the workspace meets the half-open interval test. -/
theorem hasOverlap_iff (bookings : List Booking) (w : Nat) (sa ea : Int) :
    hasOverlap bookings w sa ea = true ↔
      ∃ bk ∈ bookings, bk.workspace = w ∧ bk.status = Status.confirmed ∧
        bk.start_at < ea ∧ bk.end_at > sa := by
  simp [hasOverlap, List.any_eq_true, and_assoc]

/-- What a successful create tells us: the overlap gate was clear, the
interval was valid, and exactly one new confirmed row was appended. -/
theorem create_booking_atomic_created {st : State} {w s c : Nat} {sa ea : Int}
    {st2 : State} {b : Booking}
    (h : create_booking_atomic st w s c sa ea = CreateResult.created st2 b) :
    hasOverlap st.bookings w sa ea = false ∧ sa < ea ∧
    b = { id := st.nextId, workspace := w, service := s, customer := c,
          start_at := sa, end_at := ea, status := Status.confirmed } ∧
    st2 = { st with bookings := st.bookings ++ [b], nextId := st.nextId + 1 } := by
  unfold create_booking_atomic at h
  by_cases hov : hasOverlap st.bookings w sa ea = true
  · rw [if_pos hov] at h
    exact absurd h (by simp)
  · rw [if_neg hov] at h
    by_cases hlt : ea ≤ sa
    · rw [if_pos hlt] at h
      exact absurd h (by simp)
    · rw [if_neg hlt, if_neg hov] at h
      simp only [CreateResult.created.injEq] at h
      refine ⟨by simpa using hov, by omega, h.2.symm, ?_⟩
      rw [← h.1, h.2]

/-- One transactor call preserves the no-overlapping-confirmed-bookings
invariant: it either aborts (state unchanged) or appends a booking its
overlap gate has just cleared against every stored confirmed booking. -/
theorem applyCreate_preserves (st : State) (r : BookingRequest)
    (h : noConfirmedOverlap st) : noConfirmedOverlap (applyCreate st r) := by
  unfold applyCreate
  rcases hc : create_booking_atomic st r.workspace r.service r.customer r.start_at r.end_at
    with _ | _ | ⟨st2, b⟩
  · exact h
  · exact h
  · obtain ⟨hov, hlt, hb, hst⟩ := create_booking_atomic_created hc
    subst hst
    have hnone : ∀ x ∈ st.bookings,
        ¬(x.workspace = r.workspace ∧ x.status = Status.confirmed ∧
          x.start_at < r.end_at ∧ x.end_at > r.start_at) := by
      intro x hx hcon
      have hx2 : hasOverlap st.bookings r.workspace r.start_at r.end_at = true :=
        (hasOverlap_iff _ _ _ _).mpr ⟨x, hx, hcon.1, hcon.2.1, hcon.2.2.1, hcon.2.2.2⟩
      rw [hov] at hx2
      exact absurd hx2 (by simp)
    have hbw : b.workspace = r.workspace := by rw [hb]
    have hbs : b.start_at = r.start_at := by rw [hb]
    have hbe : b.end_at = r.end_at := by rw [hb]
    unfold noConfirmedOverlap at h ⊢
    simp only [List.pairwise_append]
    refine ⟨h, by simp, ?_⟩
    intro a ha b' hb'
    simp only [List.mem_singleton] at hb'
    subst hb'
    intro hw hca hcb hov2
    exact hnone a ha ⟨hw.trans hbw, hca, by omega, by omega⟩

/-- C1: starting from a state in which no two distinct confirmed bookings of
the same workspace overlap, any serialized sequence of `create_booking_atomic`
calls (the per-calendar `select_for_update` lock serializes concurrent
callers) leaves the invariant intact: for every pair of distinct confirmed
bookings B1, B2 on one workspace, NOT (B1.start_at < B2.end_at AND
B2.start_at < B1.end_at). -/
theorem runCreates_preserves_noConfirmedOverlap (st : State) (rs : List BookingRequest)
    (h : noConfirmedOverlap st) : noConfirmedOverlap (runCreates st rs) := by
  induction rs generalizing st with
  | nil => exact h
  | cons r rs ih => exact ih _ (applyCreate_preserves st r h)

/-- C1 witness: the invariant, instantiated on the empty store and two
conflicting concrete requests. -/
theorem runCreates_preserves_noConfirmedOverlap_witness :
    noConfirmedOverlap (runCreates stEmpty
      [{ workspace := 1, service := 1, customer := 7, start_at := 600, end_at := 630 },
       { workspace := 1, service := 1, customer := 8, start_at := 615, end_at := 645 }]) :=
  runCreates_preserves_noConfirmedOverlap stEmpty _ (by simp [noConfirmedOverlap, stEmpty])

/-- C2 counterexample: on the empty store and the degenerate request
start_at = end_at = 0 no confirmed booking satisfies the overlap test, yet
`create_booking_atomic` does not insert a booking — `full_clean` raises a
ValidationError ("End time must be after time.") before any write — so the
claim's unconditional "otherwise it inserts exactly one new booking" is
false. -/
theorem create_booking_atomic_invalid_counterexample :
    (¬ ∃ bk ∈ stEmpty.bookings, bk.workspace = 1 ∧ bk.status = Status.confirmed ∧
        bk.start_at < (0 : Int) ∧ bk.end_at > (0 : Int)) ∧
    create_booking_atomic stEmpty 1 1 7 0 0 = CreateResult.invalid := by
  exact ⟨by simp [stEmpty], by decide⟩

/-- C2 (amended): `create_booking_atomic` signals the conflict error exactly
when some stored confirmed booking of the workspace satisfies
existing.start_at < end AND existing.end_at > start; whenever it aborts (on
conflict or on validation failure) the stored state is unchanged; and
provided start_at < end_at, if no such overlap exists it inserts exactly one
new Confirmed booking for the requested interval and returns it (with
end_at ≤ start_at it raises a validation error instead and inserts
nothing). -/
theorem create_booking_atomic_spec (st : State) (w s c : Nat) (sa ea : Int) :
    (create_booking_atomic st w s c sa ea = CreateResult.conflict ↔
      ∃ bk ∈ st.bookings, bk.workspace = w ∧ bk.status = Status.confirmed ∧
        bk.start_at < ea ∧ bk.end_at > sa) ∧
    ((create_booking_atomic st w s c sa ea).isCreated = false →
      applyCreate st { workspace := w, service := s, customer := c,
                       start_at := sa, end_at := ea } = st) ∧
    (sa < ea →
      (¬ ∃ bk ∈ st.bookings, bk.workspace = w ∧ bk.status = Status.confirmed ∧
          bk.start_at < ea ∧ bk.end_at > sa) →
      create_booking_atomic st w s c sa ea = CreateResult.created
        { st with
            bookings := st.bookings ++
              [{ id := st.nextId, workspace := w, service := s, customer := c,
                 start_at := sa, end_at := ea, status := Status.confirmed }],
            nextId := st.nextId + 1 }
        { id := st.nextId, workspace := w, service := s, customer := c,
          start_at := sa, end_at := ea, status := Status.confirmed }) := by
  refine ⟨?_, ?_, ?_⟩
  · rw [← hasOverlap_iff]
    constructor
    · intro h
      by_contra hov
      rw [Bool.not_eq_true] at hov
      unfold create_booking_atomic at h
      rw [if_neg (by simp [hov])] at h
      split at h
      · exact absurd h (by simp)
      · rw [if_neg (by simp [hov])] at h
        exact absurd h (by simp)
    · intro h
      unfold create_booking_atomic
      rw [if_pos h]
  · intro h
    unfold applyCreate
    rcases hc : create_booking_atomic st w s c sa ea with _ | _ | ⟨st2, b⟩
    · rfl
    · rfl
    · rw [hc] at h
      simp [CreateResult.isCreated] at h
  · intro hlt hov
    rw [← hasOverlap_iff, Bool.not_eq_true] at hov
    unfold create_booking_atomic
    rw [if_neg (by simp [hov]), if_neg (by omega), if_neg (by simp [hov])]

/-- C2 witness: the amended contract instantiated on the empty store with the
interval 10:00-10:30. -/
theorem create_booking_atomic_spec_witness :
    create_booking_atomic stEmpty 1 1 7 600 630 = CreateResult.created
      { stEmpty with
          bookings := stEmpty.bookings ++
            [{ id := stEmpty.nextId, workspace := 1, service := 1, customer := 7,
               start_at := 600, end_at := 630, status := Status.confirmed }],
          nextId := stEmpty.nextId + 1 }
      { id := stEmpty.nextId, workspace := 1, service := 1, customer := 7,
        start_at := 600, end_at := 630, status := Status.confirmed } :=
  (create_booking_atomic_spec stEmpty 1 1 7 600 630).2.2 (by decide) (by simp [stEmpty])

/-- C3: no start `t` returned by the slot engine has an inflated interval
[t, t + duration + buffer) intersecting any blackout interval or any
confirmed booking interval of the workspace, under the half-open test
occupied.start < t + duration + buffer AND occupied.end > t.  The hypothesis
`hr` is the TimeField type invariant: a rule's end time is a time of day, at
most 24:00 = minute 1440 — it makes every inflated candidate interval lie
inside the day window the occupancy queries filter on. -/
theorem get_available_slots_avoids_occupancy (st : State) (workspace : Nat) (service : Service)
    (day : Nat) (now : Int)
    (hr : ∀ r ∈ st.rules, r.end_time ≤ 1440)
    (t : Int) (ht : t ∈ get_available_slots st workspace service day now)
    (p : Int × Int) (hp : p ∈ occupancy st workspace) :
    ¬(p.1 < t + dur_cu_pauza service.duration_min ∧ p.2 > t) := by
  obtain ⟨rule, hrule, h1, h2, h3, h4⟩ := mem_get_available_slots ht
  obtain ⟨hrmem, hrw, hrwd⟩ := mem_matchingRules hrule
  have hend : (rule.end_time : Int) ≤ 1440 := by exact_mod_cast hr rule hrmem
  have hstart : (0 : Int) ≤ (rule.start_time : Int) := Int.natCast_nonneg _
  intro hcon
  have hmem : p ∈ all_blocked_intervals st workspace ((day : Int) * 1440)
      ((day : Int) * 1440 + 1440) := by
    unfold occupancy at hp
    unfold all_blocked_intervals
    rcases List.mem_append.mp hp with hpb | hpo
    · apply List.mem_append_left
      obtain ⟨b, hb, hpeq⟩ := List.mem_map.mp hpb
      obtain ⟨hbmem, hbcond⟩ := List.mem_filter.mp hb
      have hw : b.workspace = workspace ∧ b.status = Status.confirmed := by
        simpa using hbcond
      have hbs : b.start_at = p.1 := by rw [← hpeq]
      have hbe : b.end_at = p.2 := by rw [← hpeq]
      apply List.mem_map.mpr
      refine ⟨b, List.mem_filter.mpr ⟨hbmem, ?_⟩, hpeq⟩
      simp only [Bool.and_eq_true, decide_eq_true_eq]
      refine ⟨⟨⟨hw.1, hw.2⟩, ?_⟩, ?_⟩
      · rw [hbs]; omega
      · rw [hbe]; omega
    · apply List.mem_append_right
      obtain ⟨o, ho, hpeq⟩ := List.mem_map.mp hpo
      obtain ⟨homem, hocond⟩ := List.mem_filter.mp ho
      have hw : o.workspace = workspace := by simpa using hocond
      have hos : o.start_at = p.1 := by rw [← hpeq]
      have hoe : o.end_at = p.2 := by rw [← hpeq]
      apply List.mem_map.mpr
      refine ⟨o, List.mem_filter.mpr ⟨homem, ?_⟩, hpeq⟩
      simp only [Bool.and_eq_true, decide_eq_true_eq]
      refine ⟨⟨hw, ?_⟩, ?_⟩
      · rw [hos]; omega
      · rw [hoe]; omega
  exact h4 p hmem hcon

/-- C3 witness: on the Monday store with a confirmed booking 10:30-11:00, the
returned start 09:00 clears the booking's interval. -/
theorem get_available_slots_avoids_occupancy_witness :
    ¬((630 : Int) < 540 + dur_cu_pauza svc30.duration_min ∧ (660 : Int) > 540) :=
  get_available_slots_avoids_occupancy stAdj 1 svc30 0 0 (by decide) 540 (by decide)
    (630, 660) (by decide)

/-- C4: every start returned by the slot engine is at or after now + 2 hours
(the lead-time threshold); the source's comparison `candidate_start <
booking_threshold` is strict, so a candidate exactly at the threshold is not
rejected by the lead-time rule — the witness theorem instantiates this bound
at an accepted exactly-at-threshold start. -/
theorem get_available_slots_lead_time :
    (∀ (st : State) (workspace : Nat) (service : Service) (day : Nat) (now t : Int),
        t ∈ get_available_slots st workspace service day now → now + 120 ≤ t) ∧
    (0 : Int) + 120 ∈ get_available_slots stLead 1 svc30 0 0 := by
  constructor
  · intro st workspace service day now t ht
    obtain ⟨rule, hrule, h1, h2, h3, h4⟩ := mem_get_available_slots ht
    exact h2
  · decide

/-- C4 witness: with now = 0 the threshold is minute 120, the engine on
`stLead` accepts the candidate at exactly minute 120 (the membership proof),
and the lead-time bound holds at it. -/
theorem get_available_slots_lead_time_witness : (0 : Int) + 120 ≤ 120 :=
  get_available_slots_lead_time.1 stLead 1 svc30 0 0 120 (by decide)

/-- C5 counterexample: in the spec §8 scenario (Monday rule 09:00-17:00, no
blackouts, no bookings, 30-minute service, 15-minute buffer, 2-hour lead
time, now = Monday 08:00) the last returned start is Monday 16:00 (minute
960), not the claimed Monday 16:15 (minute 975): 16:15 is not on the
30-minute grid walked from 09:00, whose last surviving candidate is 16:00
(16:00 + 45 min = 16:45 ≤ 17:00, while 16:30 + 45 min > 17:00). -/
theorem get_available_slots_scenario_counterexample :
    (get_available_slots stMon 1 svc30 0 480).getLast? = some 960 ∧
      some (960 : Int) ≠ some 975 :=
  ⟨by decide, by decide⟩

/-- C5 (amended): in the spec §8 scenario the first returned start is Monday
10:00 (minute 600, lead-time bound) and the last is Monday 16:00 (minute
960). -/
theorem get_available_slots_scenario :
    (get_available_slots stMon 1 svc30 0 480).head? = some 600 ∧
    (get_available_slots stMon 1 svc30 0 480).getLast? = some 960 :=
  ⟨by decide, by decide⟩

/-- C6: the transactor checks the bare service interval — end = start +
service.duration, no buffer — while the slot listing checks the
buffer-inflated interval: on the store with a confirmed booking 10:30-11:00,
the start 10:00 is rejected by the listing (inflated interval 10:00-10:45
intersects the booking) yet `create_booking_atomic` accepts the bare interval
[600, 600 + duration) = 10:00-10:30 adjacent within the buffer distance. -/
theorem transactor_bare_interval_vs_listing_buffer :
    (600 : Int) ∉ get_available_slots stAdj 1 svc30 0 0 ∧
    (create_booking_atomic stAdj 1 1 9 600 (600 + (svc30.duration_min : Int))).isCreated
      = true :=
  ⟨by decide, by decide⟩

/-- C7 counterexample: with two overlapping Monday rules 09:00-12:00 and
10:00-11:00 the engine returns [540, 570, 600, 630, 660, 600] — the second
rule's walk restarts at 10:00 after the first rule's walk already passed
11:00, so the output is not in ascending order. -/
theorem get_available_slots_not_ascending_counterexample :
    ¬ List.Pairwise (· ≤ ·) (get_available_slots stTwoRules 1 svc30 0 0) := by
  decide

/-- C7 (amended): each rule's walk is strictly increasing, so whenever at most
one availability rule matches the requested day the returned sequence is
strictly ascending; with several rules for the day the per-rule ascending
blocks are concatenated in rule order and global ascending order can be
lost. -/
theorem get_available_slots_sorted_single_rule (st : State) (workspace : Nat)
    (service : Service) (day : Nat) (now : Int)
    (h : (matchingRules st workspace (day % 7)).length ≤ 1) :
    List.Pairwise (· < ·) (get_available_slots st workspace service day now) := by
  unfold get_available_slots
  simp only
  split
  · exact List.Pairwise.nil
  · rcases hm : matchingRules st workspace (day % 7) with _ | ⟨r, rs⟩
    · simp [hm]
    · rcases rs with _ | ⟨r2, rs⟩
      · simp only [List.flatMap_cons, List.flatMap_nil, List.append_nil]
        exact slotWalk_pairwise _ _ _ _ _ _
      · rw [hm] at h
        simp at h

/-- C7 witness: the single-rule store of the §8 scenario yields a strictly
ascending sequence. -/
theorem get_available_slots_sorted_single_rule_witness :
    List.Pairwise (· < ·) (get_available_slots stMon 1 svc30 0 480) :=
  get_available_slots_sorted_single_rule stMon 1 svc30 0 480 (by decide)

/-- C8: a successful cancellation rewrites the store so that only the target
row's status flips to Cancelled — rules, blackouts, the id counter and every
other booking field (start_at, end_at, workspace, service, customer, id) are
unchanged; and cancelled bookings are excluded from the occupancy set, so the
vacated starts are returned again by the next slot computation: concretely,
10:00 is not offered while the 10:00-10:30 booking is confirmed and is
offered again right after it is cancelled. -/
theorem cancel_booking_frame_and_frees :
    (∀ st booking_id customer st2, cancel_booking st booking_id customer = some st2 →
      st2 = { st with bookings := st.bookings.map fun x =>
        if x.id = booking_id then { x with status := Status.cancelled } else x }) ∧
    ((600 : Int) ∉ get_available_slots stBooked 1 svc30 0 0 ∧
      cancel_booking stBooked 0 7 = some stBookedCancelled ∧
      (600 : Int) ∈ get_available_slots stBookedCancelled 1 svc30 0 0) := by
  constructor
  · intro st booking_id customer st2 h
    unfold cancel_booking at h
    split at h
    · exact absurd h (by simp)
    next bk hf =>
      by_cases h1 : bk.end_at ≤ bk.start_at
      · rw [if_pos h1] at h
        simp at h
      · rw [if_neg h1] at h
        by_cases h2 : (st.bookings.any fun x =>
            decide (x.id ≠ booking_id) && decide (x.workspace = bk.workspace) &&
            decide (x.status = Status.confirmed) &&
            decide (x.start_at < bk.end_at) && decide (x.end_at > bk.start_at)) = true
        · rw [if_pos h2] at h
          simp at h
        · rw [if_neg h2] at h
          exact (Option.some.inj h).symm
  · exact ⟨by decide, by decide, by decide⟩

/-- C8 witness: the frame property instantiated on the concrete
cancellation. -/
theorem cancel_booking_frame_witness :
    stBookedCancelled = { stBooked with bookings := stBooked.bookings.map fun x =>
      if x.id = 0 then { x with status := Status.cancelled } else x } :=
  cancel_booking_frame_and_frees.1 stBooked 0 7 stBookedCancelled (by decide)

/-- C9: the slot engine is deterministic — in the embedding it is a pure
function of the stored rules, blackouts and bookings, the service, the day
and the injected current instant (the source's only hidden input,
`timezone.now()`, is made explicit), so two calls with identical inputs and
no intervening writes return identical output sequences. -/
theorem get_available_slots_deterministic (st : State) (workspace : Nat) (service : Service)
    (day : Nat) (now : Int) :
    get_available_slots st workspace service day now =
      get_available_slots st workspace service day now := rfl

/-- Each rule contributes at most 49 starts: its walk advances 30 minutes per
iteration inside a window of at most 1440 minutes. -/
theorem flatMap_slotWalk_length (thr : Int) (blocked : List (Int × Int)) (dur : Nat)
    (ds : Int) (l : List AvailabilityRule) (hl : ∀ r ∈ l, r.end_time ≤ 1440) :
    (l.flatMap fun rule => slotWalk thr blocked dur (ds + (rule.end_time : Int))
      (rule.end_time + 1) (ds + (rule.start_time : Int))).length ≤ 49 * l.length := by
  induction l with
  | nil => simp
  | cons r l ih =>
    simp only [List.flatMap_cons, List.length_append, List.length_cons]
    have h1 := slotWalk_length thr blocked dur (ds + (r.end_time : Int)) (r.end_time + 1)
      (ds + (r.start_time : Int))
    have h2 := ih (fun x hx => hl x (List.mem_cons_of_mem _ hx))
    have hre := hl r (List.mem_cons_self _ _)
    have hb : (ds + (r.end_time : Int) + 30 - (ds + (r.start_time : Int))).toNat ≤ 1470 := by
      omega
    omega

/-- C10: the slot engine is total and bounded on valid inputs: every rule's
candidate walk advances by the fixed positive 30-minute step under the loop
bound t + duration + buffer ≤ rule end, so with the TimeField invariant
(rule end times at most minute 1440) the whole output has at most 49 starts
per stored rule — the computation terminates within that many iterations. -/
theorem get_available_slots_length_bound (st : State) (workspace : Nat) (service : Service)
    (day : Nat) (now : Int)
    (hr : ∀ r ∈ st.rules, r.end_time ≤ 1440) :
    (get_available_slots st workspace service day now).length ≤ 49 * st.rules.length := by
  unfold get_available_slots
  simp only
  split
  · simp
  · refine le_trans (flatMap_slotWalk_length _ _ _ _ _ ?_) ?_
    · intro r hrm
      exact hr r (mem_matchingRules hrm).1
    · have hlen : (matchingRules st workspace (day % 7)).length ≤ st.rules.length := by
        unfold matchingRules
        rw [List.length_insertionSort]
        exact List.length_filter_le _ _
      omega

/-- C10 witness: the bound instantiated on the §8 scenario store. -/
theorem get_available_slots_length_bound_witness :
    (get_available_slots stMon 1 svc30 0 480).length ≤ 49 * stMon.rules.length :=
  get_available_slots_length_bound stMon 1 svc30 0 480 (by decide)

end Bookora
